import Mathlib

/-!
Shallow embedding of the `smol-pg` PostgreSQL client (the converged draft:
`src/util/mod.rs`, `src/protocol/message/{server,client,parsing}.rs`,
`src/connection.rs`) together with theorems settling the specification
claims about it.

Bytes are modelled as `Nat` values; wherever the Rust code interprets
machine integers, the embedding reduces modulo 256 / 2^16 / 2^32 explicitly.
Strings travelling over the wire are byte lists; UTF-8 validation is
embedded directly.  Fallible Rust functions returning `Result` become
`Except`.
-/

namespace SmolPg

/-- Decode errors from `src/util/mod.rs` (`DecodeError`).  The `utf8Error`
variant carries the offending bytes in place of Rust's `FromUtf8Error`. -/
inductive DecodeError where
  | unexpectedEof : DecodeError
  | unexpectedByte (expected got : Nat) : DecodeError
  | unexpectedValue (msg : String) : DecodeError
  | utf8Error (bytes : List Nat) : DecodeError
deriving DecidableEq

/-- Encode errors from `src/util/mod.rs` (`EncodeError`). -/
inductive EncodeError where
  | unexpectedEof : EncodeError
deriving DecidableEq

/-- Combined codec error from `src/util/mod.rs` (`CodecError`). -/
inductive CodecError where
  | decode (e : DecodeError) : CodecError
  | encode (e : EncodeError) : CodecError
deriving DecidableEq

/-- Two's-complement interpretation of two big-endian bytes as an `i16`
(`i16::from_be_bytes`). -/
def toI16 (b0 b1 : Nat) : Int :=
  let u : Nat := (b0 % 256) * 256 + b1 % 256
  if u < 32768 then (u : Int) else (u : Int) - 65536

/-- Two's-complement interpretation of four big-endian bytes as an `i32`
(`i32::from_be_bytes`). -/
def toI32 (b0 b1 b2 b3 : Nat) : Int :=
  let u : Nat := ((b0 % 256) * 256 + b1 % 256) * 65536 + (b2 % 256) * 256 + b3 % 256
  if u < 2147483648 then (u : Int) else (u : Int) - 4294967296

/-- Two's-complement interpretation of four little-endian bytes as an `i32`
(`i32::from_le_bytes`). -/
def toI32le (b0 b1 b2 b3 : Nat) : Int := toI32 b3 b2 b1 b0

/-- Whether a byte is a UTF-8 continuation byte (`0x80..=0xBF`). -/
def utf8Cont (b : Nat) : Bool := decide (128 ≤ b ∧ b < 192)

/-- UTF-8 validation with explicit fuel; each step consumes at least one
byte, so fuel equal to the list length suffices. -/
def utf8ValidFuel : Nat → List Nat → Bool
  | _, [] => true
  | 0, _ :: _ => false
  | fuel + 1, b :: rest =>
    if b < 128 then utf8ValidFuel fuel rest
    else if decide (194 ≤ b ∧ b ≤ 223) then
      match rest with
      | c1 :: rest2 => utf8Cont c1 && utf8ValidFuel fuel rest2
      | [] => false
    else if b = 224 then
      match rest with
      | c1 :: c2 :: rest2 =>
        decide (160 ≤ c1 ∧ c1 < 192) && utf8Cont c2 && utf8ValidFuel fuel rest2
      | _ => false
    else if decide (225 ≤ b ∧ b ≤ 236) then
      match rest with
      | c1 :: c2 :: rest2 => utf8Cont c1 && utf8Cont c2 && utf8ValidFuel fuel rest2
      | _ => false
    else if b = 237 then
      match rest with
      | c1 :: c2 :: rest2 =>
        decide (128 ≤ c1 ∧ c1 < 160) && utf8Cont c2 && utf8ValidFuel fuel rest2
      | _ => false
    else if decide (238 ≤ b ∧ b ≤ 239) then
      match rest with
      | c1 :: c2 :: rest2 => utf8Cont c1 && utf8Cont c2 && utf8ValidFuel fuel rest2
      | _ => false
    else if b = 240 then
      match rest with
      | c1 :: c2 :: c3 :: rest2 =>
        decide (144 ≤ c1 ∧ c1 < 192) && utf8Cont c2 && utf8Cont c3 &&
          utf8ValidFuel fuel rest2
      | _ => false
    else if decide (241 ≤ b ∧ b ≤ 243) then
      match rest with
      | c1 :: c2 :: c3 :: rest2 =>
        utf8Cont c1 && utf8Cont c2 && utf8Cont c3 && utf8ValidFuel fuel rest2
      | _ => false
    else if b = 244 then
      match rest with
      | c1 :: c2 :: c3 :: rest2 =>
        decide (128 ≤ c1 ∧ c1 < 144) && utf8Cont c2 && utf8Cont c3 &&
          utf8ValidFuel fuel rest2
      | _ => false
    else false

/-- Validity of a byte list as UTF-8, mirroring `std::str::from_utf8`
succeeding. -/
def utf8Valid (l : List Nat) : Bool := utf8ValidFuel l.length l

/-- The cursor-based byte reader from `src/util/mod.rs` (`Reader`). -/
structure Reader where
  buffer : List Nat
  position : Nat
deriving DecidableEq

namespace Reader

/-- `Reader::new`. -/
def new (buffer : List Nat) : Reader := ⟨buffer, 0⟩

/-- `Reader::skip`. -/
def skip (r : Reader) (n : Nat) : Except DecodeError Reader :=
  if r.position + n > r.buffer.length then .error .unexpectedEof
  else .ok { r with position := r.position + n }

/-- `Reader::peek_u8`. -/
def peek_u8 (r : Reader) : Except DecodeError Nat :=
  if r.position + 1 > r.buffer.length then .error .unexpectedEof
  else .ok (r.buffer.getD r.position 0)

/-- `Reader::read_u8`. -/
def read_u8 (r : Reader) : Except DecodeError (Nat × Reader) :=
  if r.position + 1 > r.buffer.length then .error .unexpectedEof
  else .ok (r.buffer.getD r.position 0, { r with position := r.position + 1 })

/-- `Reader::read_bytes` (also covering `read_bytes_const`). -/
def read_bytes (r : Reader) (n : Nat) : Except DecodeError (List Nat × Reader) :=
  if r.position + n > r.buffer.length then .error .unexpectedEof
  else .ok ((r.buffer.drop r.position).take n, { r with position := r.position + n })

/-- `Reader::read_remaining_bytes`. -/
def read_remaining_bytes (r : Reader) : Except DecodeError (List Nat × Reader) :=
  .ok (r.buffer.drop r.position, { r with position := r.buffer.length })

/-- `Reader::read_i16` (big-endian). -/
def read_i16 (r : Reader) : Except DecodeError (Int × Reader) :=
  match r.read_bytes 2 with
  | .error e => .error e
  | .ok (bs, r2) => .ok (toI16 (bs.getD 0 0) (bs.getD 1 0), r2)

/-- `Reader::read_i32` (big-endian). -/
def read_i32 (r : Reader) : Except DecodeError (Int × Reader) :=
  match r.read_bytes 4 with
  | .error e => .error e
  | .ok (bs, r2) => .ok (toI32 (bs.getD 0 0) (bs.getD 1 0) (bs.getD 2 0) (bs.getD 3 0), r2)

/-- `Reader::read_cstring`: scans for a NUL, checks UTF-8, advances past the
terminator.  The source maps a UTF-8 failure to `DecodeError::UnexpectedEof`
(`.map_err(|_| DecodeError::UnexpectedEof)`). -/
def read_cstring (r : Reader) : Except DecodeError (List Nat × Reader) :=
  match (r.buffer.drop r.position).findIdx? (· == 0) with
  | none => .error .unexpectedEof
  | some rel =>
    let str := (r.buffer.drop r.position).take rel
    if utf8Valid str then .ok (str, { r with position := r.position + rel + 1 })
    else .error .unexpectedEof

/-- `Reader::finish`. -/
def finish (r : Reader) : Except DecodeError Unit :=
  if r.position ≠ r.buffer.length then .error .unexpectedEof else .ok ()

end Reader

/-- Lift a decode error into a codec error (`From<DecodeError> for CodecError`,
as used implicitly by `?` in the source). -/
def liftD {α : Type} : Except DecodeError α → Except CodecError α
  | .error e => .error (.decode e)
  | .ok a => .ok a

namespace Server

/-- `server::Authentication`. -/
inductive Authentication where
  | ok : Authentication
  | sasl (mechanisms : List (List Nat)) : Authentication
  | saslContinue (data : List Nat) : Authentication
  | saslFinal (data : List Nat) : Authentication
deriving DecidableEq

/-- `server::Error` — field-code to text map (`HashMap<u8, String>` modelled
as an association list built by overwrite-on-insert). -/
structure Error where
  fields : List (Nat × List Nat)
deriving DecidableEq

/-- `server::Notice`. -/
structure Notice where
  fields : List (Nat × List Nat)
deriving DecidableEq

/-- `server::ParameterStatus`. -/
structure ParameterStatus where
  name : List Nat
  value : List Nat
deriving DecidableEq

/-- `server::KeyData`. -/
structure KeyData where
  process_id : Int
  secret_key : Int
deriving DecidableEq

/-- `server::CommandComplete`. -/
structure CommandComplete where
  tag : List Nat
deriving DecidableEq

/-- `server::FormatCode`. -/
inductive FormatCode where
  | text : FormatCode
  | binary : FormatCode
deriving DecidableEq

/-- `server::FieldDescription`. -/
structure FieldDescription where
  name : List Nat
  table_oid : Option Int
  attribute_number : Option Int
  data_type_oid : Int
  data_type_size : Int
  data_type_modifier : Int
  format_code : FormatCode
deriving DecidableEq

/-- `server::RowDescription`. -/
structure RowDescription where
  fields : List FieldDescription
deriving DecidableEq

/-- `server::Data` — the raw byte payload of one column of one row. -/
structure Data where
  bytes : List Nat
deriving DecidableEq

/-- `server::DataRow`. -/
structure DataRow where
  fields : List Data
deriving DecidableEq

/-- `server::Message`. -/
inductive Message where
  | authentication (a : Authentication) : Message
  | error (e : Error) : Message
  | notice (n : Notice) : Message
  | parameterStatus (p : ParameterStatus) : Message
  | keyData (k : KeyData) : Message
  | readyForQuery : Message
  | emptyQuery : Message
  | commandComplete (c : CommandComplete) : Message
  | rowDescription (d : RowDescription) : Message
  | dataRow (d : DataRow) : Message
deriving DecidableEq

/-- `HashMap::insert` on the association-list model: overwrite the existing
binding or append a new one. -/
def insertField (m : List (Nat × List Nat)) (k : Nat) (v : List Nat) :
    List (Nat × List Nat) :=
  if m.any (fun p => p.1 = k) then m.map (fun p => if p.1 = k then (k, v) else p)
  else m ++ [(k, v)]

/-- The SASL mechanism-list loop in `Authentication::try_from`
(`while reader.peek_u8()? != 0 { mechanisms.push(reader.read_cstring()?) }`).
Fuel bounds the iteration count; each iteration consumes at least one byte,
so fuel exceeding the buffer length is never exhausted. -/
def readMechanisms : Nat → List (List Nat) → Reader →
    Except CodecError (List (List Nat))
  | 0, _, _ => .error (.decode .unexpectedEof)
  | fuel + 1, acc, r =>
    match r.peek_u8 with
    | .error e => .error (.decode e)
    | .ok b =>
      if b = 0 then .ok acc
      else
        match r.read_cstring with
        | .error e => .error (.decode e)
        | .ok (s, r2) => readMechanisms fuel (acc ++ [s]) r2

/-- `Authentication::try_from`. -/
def Authentication.try_from (r : Reader) : Except CodecError Authentication := do
  let r ← liftD (r.skip 4)
  let (messageType, r) ← liftD r.read_i32
  if messageType = 0 then do
    let _ ← liftD r.finish
    pure Authentication.ok
  else if messageType = 10 then do
    let mechanisms ← readMechanisms (r.buffer.length + 1) [] r
    pure (Authentication.sasl mechanisms)
  else if messageType = 11 then do
    let (data, _) ← liftD r.read_remaining_bytes
    pure (Authentication.saslContinue data)
  else if messageType = 12 then do
    let (data, _) ← liftD r.read_remaining_bytes
    pure (Authentication.saslFinal data)
  else
    .error (.decode (.unexpectedValue
      s!"unknown authentication response type: `{messageType}`"))

/-- The field/value loop shared by `Error::try_from` and `Notice::try_from`
(`while reader.peek_u8()? != 0 { ... fields.insert(field, value) }`). -/
def readErrorFields : Nat → List (Nat × List Nat) → Reader →
    Except CodecError (List (Nat × List Nat))
  | 0, _, _ => .error (.decode .unexpectedEof)
  | fuel + 1, acc, r =>
    match r.peek_u8 with
    | .error e => .error (.decode e)
    | .ok b =>
      if b = 0 then .ok acc
      else
        match r.read_u8 with
        | .error e => .error (.decode e)
        | .ok (field, r2) =>
          match r2.read_cstring with
          | .error e => .error (.decode e)
          | .ok (value, r3) => readErrorFields fuel (insertField acc field value) r3

/-- `Error::try_from`. -/
def Error.try_from (r : Reader) : Except CodecError Error := do
  let r ← liftD (r.skip 4)
  let fields ← readErrorFields (r.buffer.length + 1) [] r
  pure ⟨fields⟩

/-- `Notice::try_from`. -/
def Notice.try_from (r : Reader) : Except CodecError Notice := do
  let r ← liftD (r.skip 4)
  let fields ← readErrorFields (r.buffer.length + 1) [] r
  pure ⟨fields⟩

/-- `ParameterStatus::try_from`. -/
def ParameterStatus.try_from (r : Reader) : Except CodecError ParameterStatus := do
  let r ← liftD (r.skip 4)
  let (name, r) ← liftD r.read_cstring
  let (value, _) ← liftD r.read_cstring
  pure ⟨name, value⟩

/-- `KeyData::try_from`. -/
def KeyData.try_from (r : Reader) : Except CodecError KeyData := do
  let r ← liftD (r.skip 4)
  let (process_id, r) ← liftD r.read_i32
  let (secret_key, _) ← liftD r.read_i32
  pure ⟨process_id, secret_key⟩

/-- `CommandComplete::try_from`. -/
def CommandComplete.try_from (r : Reader) : Except CodecError CommandComplete := do
  let r ← liftD (r.skip 4)
  let (tag, _) ← liftD r.read_cstring
  pure ⟨tag⟩

/-- `FieldDescription::try_from(&mut Reader)` — returns the advanced reader. -/
def FieldDescription.try_from (r : Reader) :
    Except CodecError (FieldDescription × Reader) := do
  let (name, r) ← liftD r.read_cstring
  let (table_oid, r) ← liftD r.read_i32
  let (attribute_number, r) ← liftD r.read_i16
  let (data_type_oid, r) ← liftD r.read_i32
  let (data_type_size, r) ← liftD r.read_i16
  let (data_type_modifier, r) ← liftD r.read_i32
  let (format_code, r) ← liftD r.read_i16
  let table_oid := if table_oid = 0 then none else some table_oid
  let attribute_number := if attribute_number = 0 then none else some attribute_number
  if format_code = 0 then
    pure (⟨name, table_oid, attribute_number, data_type_oid, data_type_size,
      data_type_modifier, FormatCode.text⟩, r)
  else if format_code = 1 then
    pure (⟨name, table_oid, attribute_number, data_type_oid, data_type_size,
      data_type_modifier, FormatCode.binary⟩, r)
  else
    .error (.decode (.unexpectedValue s!"unknown format code: `{format_code}`"))

/-- The `for _ in 0..field_count` loop of `RowDescription::try_from`. -/
def readFieldDescriptions : Nat → List FieldDescription → Reader →
    Except CodecError (List FieldDescription)
  | 0, acc, _ => .ok acc
  | n + 1, acc, r =>
    match FieldDescription.try_from r with
    | .error e => .error e
    | .ok (fd, r2) => readFieldDescriptions n (acc ++ [fd]) r2

/-- `RowDescription::try_from`. -/
def RowDescription.try_from (r : Reader) : Except CodecError RowDescription := do
  let r ← liftD (r.skip 4)
  let (field_count, r) ← liftD r.read_i16
  if field_count < 0 then
    .error (.decode (.unexpectedValue "negative number of fields in row description"))
  else do
    let fields ← readFieldDescriptions field_count.toNat [] r
    pure ⟨fields⟩

/-- One iteration of the field loop in `DataRow::try_from`: read the declared
size; sizes `1..` read that many bytes, anything else (zero or negative,
including the NULL sentinel `-1`) pushes an empty `Data` without reading. -/
def readDataField (r : Reader) : Except CodecError (Data × Reader) :=
  match r.read_i32 with
  | .error e => .error (.decode e)
  | .ok (field_size, r2) =>
    if 1 ≤ field_size then
      match r2.read_bytes field_size.toNat with
      | .error e => .error (.decode e)
      | .ok (bytes, r3) => .ok (⟨bytes⟩, r3)
    else .ok (⟨[]⟩, r2)

/-- The `for _ in 0..n` loop of `DataRow::try_from`. -/
def readDataFields : Nat → List Data → Reader → Except CodecError (List Data)
  | 0, acc, _ => .ok acc
  | n + 1, acc, r =>
    match readDataField r with
    | .error e => .error e
    | .ok (d, r2) => readDataFields n (acc ++ [d]) r2

/-- `DataRow::try_from`. -/
def DataRow.try_from (r : Reader) : Except CodecError DataRow := do
  let r ← liftD (r.skip 4)
  let (n, r) ← liftD r.read_i16
  if n < 0 then
    .error (.decode (.unexpectedValue s!"negative number of fields in data row: `{n}`"))
  else do
    let fields ← readDataFields n.toNat [] r
    pure ⟨fields⟩

/-- `Message::try_from` — tag dispatch over the full frame (tag byte included). -/
def Message.try_from (r : Reader) : Except CodecError Message :=
  match r.read_u8 with
  | .error e => .error (.decode e)
  | .ok (t, r2) =>
    if t = 90 then .ok .readyForQuery
    else if t = 82 then (Authentication.try_from r2).map .authentication
    else if t = 69 then (Error.try_from r2).map .error
    else if t = 83 then (ParameterStatus.try_from r2).map .parameterStatus
    else if t = 75 then (KeyData.try_from r2).map .keyData
    else if t = 73 then .ok .emptyQuery
    else if t = 67 then (CommandComplete.try_from r2).map .commandComplete
    else if t = 78 then (Notice.try_from r2).map .notice
    else if t = 84 then (RowDescription.try_from r2).map .rowDescription
    else if t = 68 then (DataRow.try_from r2).map .dataRow
    else
      .error (.decode (.unexpectedValue
        s!"unknown message type: `{Char.ofNat t}`, or byte value `{t}`"))

/-- `RowDescription::field_index` — first field whose name matches. -/
def RowDescription.field_index (rd : RowDescription) (name : List Nat) : Option Nat :=
  rd.fields.findIdx? (fun field => field.name = name)

end Server

/-- Errors escaping the `FromSql` parsers (`BoxError` in the source, a boxed
`dyn Error`); modelled as a closed sum of the error shapes the `i32`
instance can produce, plus the row-lookup failure `FieldNotFound`. -/
inductive BoxError where
  | fieldNotFound (name : List Nat) : BoxError
  | utf8 (bytes : List Nat) : BoxError
  | intParse (text : List Nat) : BoxError
  | sliceLen (bytes : List Nat) : BoxError
deriving DecidableEq

/-- ASCII decimal digit test. -/
def isDigit (b : Nat) : Bool := decide (48 ≤ b ∧ b ≤ 57)

/-- Value of a non-empty all-digit ASCII byte list. -/
def digitsVal (l : List Nat) : Option Nat :=
  if l.isEmpty || l.any (fun b => !(isDigit b)) then none
  else some (l.foldl (fun acc b => acc * 10 + (b - 48)) 0)

/-- `<i32 as FromSql>::from_text`: UTF-8 decode then `str::parse::<i32>`
(optional sign, ASCII decimal, in-range for `i32`). -/
def i32_from_text (text : List Nat) : Except BoxError Int :=
  if !(utf8Valid text) then .error (.utf8 text)
  else
    let sd : Int × List Nat :=
      match text with
      | 43 :: rest => (1, rest)
      | 45 :: rest => (-1, rest)
      | _ => (1, text)
    match digitsVal sd.2 with
    | none => .error (.intParse text)
    | some v =>
      let value : Int := sd.1 * (v : Int)
      if value < -2147483648 ∨ 2147483647 < value then .error (.intParse text)
      else .ok value

/-- `<i32 as FromSql>::from_binary`: `i32::from_le_bytes(binary.try_into()?)` —
note the little-endian interpretation in the source. -/
def i32_from_binary (binary : List Nat) : Except BoxError Int :=
  if binary.length = 4 then
    .ok (toI32le (binary.getD 0 0) (binary.getD 1 0) (binary.getD 2 0) (binary.getD 3 0))
  else .error (.sliceLen binary)

/-- `Data::parse_text::<i32>`. -/
def Server.Data.parse_text_i32 (d : Server.Data) : Except BoxError Int :=
  i32_from_text d.bytes

/-- `Data::parse_binary::<i32>`. -/
def Server.Data.parse_binary_i32 (d : Server.Data) : Except BoxError Int :=
  i32_from_binary d.bytes

namespace Client

/-- `client::Startup` — user name plus the optional-parameter map. -/
structure Startup where
  user : String
  options : List (String × String)
deriving DecidableEq

/-- `Startup::new`: inserts `database` and `options` entries only when the
corresponding argument is present. -/
def Startup.new (user : String) (database : Option String)
    (server_options : Option String) : Startup :=
  let options : List (String × String) := []
  let options := match database with
    | some d => options ++ [("database", d)]
    | none => options
  let options := match server_options with
    | some o => options ++ [("options", o)]
    | none => options
  ⟨user, options⟩

/-- `client::Query`. -/
structure Query where
  query : String
deriving DecidableEq

/-- `Query::new`. -/
def Query.new (q : String) : Query := ⟨q⟩

/-- A frontend message as handed to `Connection::send_message`. -/
inductive Message where
  | startup (m : Startup) : Message
  | query (m : Query) : Message
deriving DecidableEq

end Client

/-- `connection::ProtocolError`. -/
inductive ProtocolError where
  | missingRowDescription : ProtocolError
deriving DecidableEq

/-- Modelled from the spec: the crate-level error enum (taxonomy of §7 —
network, codec and protocol errors).  `connection.rs` matches on
`Error::NetworkError`, `Error::CodecError` and converts `ProtocolError`
via `?`, but the enum itself is not defined in the files under `src/`
(the checked-in `lib.rs` is an earlier draft). -/
inductive Error where
  | networkError : Error
  | codecError (e : CodecError) : Error
  | protocolError (e : ProtocolError) : Error
deriving DecidableEq

/-- Default server port (`POSTGRES_PORT`/`POSTGRES_DEFAULT_PORT`, 5432). -/
def POSTGRES_DEFAULT_PORT : Nat := 5432

/-- The connection state of `connection::Connection`, minus the transport
handle: the transport is supplied to each operation as the script of
messages (or bytes) it would deliver. -/
structure Conn where
  response_buffer : List Server.Message
  ready_to_query : Bool
  key_data : Option Server.KeyData
deriving DecidableEq

/-- `Connection::new`: empty buffer, not ready, no key data. -/
def Conn.new : Conn := ⟨[], false, none⟩

/-- `connection::Row`: a data row's fields bound to the shared
`RowDescription` metadata. -/
structure Row where
  metadata : Server.RowDescription
  fields : List Server.Data
deriving DecidableEq

/-- `Row::get`: look up the column index by name, then the field. -/
def Row.get (row : Row) (name : List Nat) : Option Server.Data :=
  match row.metadata.field_index name with
  | none => none
  | some index => row.fields.get? index

/-- `Row::get_and_parse::<i32>`: dispatch on the column's format code to the
binary or text parser.  The second `field_index` lookup mirrors the
source's `unwrap()`; it cannot fail once `get` has succeeded. -/
def Row.get_and_parse_i32 (row : Row) (name : List Nat) : Except BoxError Int :=
  match row.get name with
  | none => .error (.fieldNotFound name)
  | some data =>
    match row.metadata.field_index name with
    | none => .error (.fieldNotFound name)
    | some field_index =>
      match (row.metadata.fields.getD field_index
          ⟨[], none, none, 0, 0, 0, Server.FormatCode.text⟩).format_code with
      | .binary => data.parse_binary_i32
      | .text => data.parse_text_i32

/-- Decidable equality for `Except`, needed to evaluate results on concrete
inputs. -/
instance {ε α : Type} [DecidableEq ε] [DecidableEq α] : DecidableEq (Except ε α)
  | .error x, .error y =>
    match decEq x y with
    | isTrue h => isTrue (h ▸ rfl)
    | isFalse h => isFalse fun hc => h (by cases hc; rfl)
  | .error _, .ok _ => isFalse fun hc => Except.noConfusion hc
  | .ok _, .error _ => isFalse fun hc => Except.noConfusion hc
  | .ok x, .ok y =>
    match decEq x y with
    | isTrue h => isTrue (h ▸ rfl)
    | isFalse h => isFalse fun hc => h (by cases hc; rfl)

namespace Connection

/-- The handshake loop of `Connection::create`: buffer every message until
the first `ReadyForQuery`, which sets the ready flag and ends the loop.
An exhausted script means the next transport read fails (`NetworkError`). -/
def handshakeLoop : Conn → List Server.Message → Except Error Conn
  | _, [] => .error .networkError
  | conn, m :: rest =>
    match m with
    | .readyForQuery => .ok { conn with ready_to_query := true }
    | otherwise =>
      handshakeLoop
        { conn with response_buffer := conn.response_buffer ++ [otherwise] } rest

/-- Result of `Connection::create`: the frontend messages sent and the
connection (or error) produced. -/
structure CreateResult where
  sent : List Client.Message
  result : Except Error Conn
deriving DecidableEq

/-- `Connection::create`: connect, send `Startup::new("postgres", None, None)`,
then run the handshake loop over the backend's responses. -/
def create (address : Nat) (port : Option Nat) (responses : List Server.Message) :
    CreateResult :=
  let _resolved_port := port.getD POSTGRES_DEFAULT_PORT
  let _addr := address
  let startup_message := Client.Startup.new "postgres" none none
  { sent := [Client.Message.startup startup_message],
    result := handshakeLoop Conn.new responses }

/-- Observable outcome of `Connection::query`: rows, a returned error, or a
process abort (`panic!`). -/
inductive QueryOutcome where
  | ok (rows : List Row) : QueryOutcome
  | err (e : Error) : QueryOutcome
  | panicked (msg : String) : QueryOutcome
deriving DecidableEq

/-- Result of `Connection::query`: the frontend messages sent, the outcome,
and the final connection state. -/
structure QueryRun where
  sent : List Client.Message
  outcome : QueryOutcome
  conn : Conn
deriving DecidableEq

/-- The message loop of `Connection::query`: `CommandComplete` ends the loop
(then rows are built, or `MissingRowDescription` if no `RowDescription`
arrived); `RowDescription` replaces the current metadata; `DataRow`
accumulates; a backend `Error` hits `panic!("oops")`; anything else is
buffered. -/
def queryLoop : Conn → Option Server.RowDescription → List Server.DataRow →
    List Server.Message → Conn × QueryOutcome
  | conn, _, _, [] => (conn, .err .networkError)
  | conn, row_description, data_rows, m :: rest =>
    match m with
    | .commandComplete _ =>
      match row_description with
      | none => (conn, .err (.protocolError .missingRowDescription))
      | some rd => (conn, .ok (data_rows.map (fun dr => ⟨rd, dr.fields⟩)))
    | .rowDescription d => queryLoop conn (some d) data_rows rest
    | .dataRow dr => queryLoop conn row_description (data_rows ++ [dr]) rest
    | .error _ => (conn, .panicked "oops")
    | otherwise =>
      queryLoop { conn with response_buffer := conn.response_buffer ++ [otherwise] }
        row_description data_rows rest

/-- `Connection::query`: send `SimpleQuery` (no readiness check appears in
the source), then run the message loop. -/
def query (conn : Conn) (q : String) (responses : List Server.Message) : QueryRun :=
  let query_message := Client.Query.new q
  let step := queryLoop conn none [] responses
  { sent := [Client.Message.query query_message],
    outcome := step.2,
    conn := step.1 }

/-- `read_exact` on the modelled byte stream: take exactly `n` bytes or fail. -/
def read_exact (stream : List Nat) (n : Nat) : Option (List Nat × List Nat) :=
  if n ≤ stream.length then some (stream.take n, stream.drop n) else none

/-- `Connection::read_message`: read the type byte and the 4-byte big-endian
length, reject a declared length `< 4`, read `length − 4` body bytes, and
decode the reassembled `1 + length`-byte frame via `Message::try_from`.
Returns the decoded message and the unconsumed remainder of the stream. -/
def read_message (stream : List Nat) : Except Error (Server.Message × List Nat) :=
  match read_exact stream 1 with
  | none => .error .networkError
  | some (message_type_buf, s1) =>
    match read_exact s1 4 with
    | none => .error .networkError
    | some (message_length_buf, s2) =>
      let message_length := toI32 (message_length_buf.getD 0 0)
        (message_length_buf.getD 1 0) (message_length_buf.getD 2 0)
        (message_length_buf.getD 3 0)
      if message_length < 4 then
        .error (.codecError (.decode (.unexpectedValue "message length implausibly small")))
      else
        let actual_message_length := message_length.toNat + 1
        match read_exact s2 (actual_message_length - 5) with
        | none => .error .networkError
        | some (body, s3) =>
          let buf := message_type_buf ++ message_length_buf ++ body
          match Server.Message.try_from (Reader.new buf) with
          | .error e => .error (.codecError e)
          | .ok msg => .ok (msg, s3)

end Connection

/-- Whether a backend message is a `RowDescription`. -/
def Server.Message.is_row_description : Server.Message → Bool
  | .rowDescription _ => true
  | _ => false

/-- Whether a backend message is an `Error`. -/
def Server.Message.is_error : Server.Message → Bool
  | .error _ => true
  | _ => false

/-- Whether a backend message is a `CommandComplete`. -/
def Server.Message.is_command_complete : Server.Message → Bool
  | .commandComplete _ => true
  | _ => false

/-- Whether a backend message is `ReadyForQuery`. -/
def Server.Message.is_ready_for_query : Server.Message → Bool
  | .readyForQuery => true
  | _ => false

/-!
Theorems settling the claims.
-/

/-- C1: when the response sequence of a query contains a backend `Error`
message, `Connection::query` does not return a `ServerError` value as data;
evaluated at such an input, the loop executes `panic!("oops")`, aborting
the calling process.  The claim is right about the required behaviour and
the code is wrong (the spec itself records this as the
process-abort-on-server-error defect). -/
theorem query_aborts_on_server_error :
    (Connection.query { Conn.new with ready_to_query := true } "SELECT 1"
        [Server.Message.error ⟨[(83, [70, 65, 84, 65, 76])]⟩]).outcome
      = Connection.QueryOutcome.panicked "oops" := by decide

/-- C2 counterexample: on a connection whose `ready` flag is false,
`Connection::query` still sends the `SimpleQuery` message and does not fail
with a protocol-state error — refuting the claim at a concrete input. -/
theorem query_sends_despite_not_ready :
    Conn.new.ready_to_query = false
    ∧ (Connection.query Conn.new "SELECT 1"
          [Server.Message.commandComplete ⟨[]⟩]).sent
        = [Client.Message.query (Client.Query.new "SELECT 1")] := by decide

/-- C2 (amended): `Connection::query` performs no readiness check at all —
for every connection state (in particular with `ready == false`), query
text and response script, it sends exactly the `SimpleQuery` message. -/
theorem query_sends_unconditionally (conn : Conn) (q : String)
    (responses : List Server.Message) :
    (Connection.query conn q responses).sent
      = [Client.Message.query (Client.Query.new q)] := rfl

/-- C3 counterexample: a response sequence consisting of a single
`CommandComplete` (no `RowDescription`, no `DataRow`) makes
`Connection::query` fail with `MissingRowDescription` instead of returning
the empty row sequence the claim promises. -/
theorem query_empty_result_errors :
    (Connection.query { Conn.new with ready_to_query := true } "CREATE TABLE t (x int)"
        [Server.Message.commandComplete ⟨[67]⟩]).outcome
      = .err (.protocolError .missingRowDescription) := by decide

/-- C5: the binary-format `i32` decoder reached through
`Row::get_and_parse` interprets its four bytes little-endian
(`i32::from_le_bytes`), not big-endian as the claim states: decoding the
bytes `[0, 0, 0, 1]` yields `2^24 = 16777216`, not
`0*2^24 + 0*2^16 + 0*2^8 + 1 = 1`.  The spec itself flags the little-endian
decoder as inconsistent with the wire protocol, so the code is in the
wrong. -/
theorem binary_i32_decoder_little_endian :
    (Row.get_and_parse_i32
        ⟨⟨[⟨[99], none, none, 23, 4, 0, Server.FormatCode.binary⟩]⟩, [⟨[0, 0, 0, 1]⟩]⟩
        [99])
      = .ok 16777216
    ∧ i32_from_binary [0, 0, 0, 1] = .ok 16777216
    ∧ (16777216 : Int) ≠ 1 := by decide

/-- C6 counterexample: a `DataRow` field declared with wire length `-1`
(SQL NULL) and one declared with length `0` (zero-length non-null value)
decode to the same `Data` value — the empty payload — so the two are not
distinguishable, refuting the claim. -/
theorem null_equals_empty_field :
    Server.DataRow.try_from (Reader.new [0, 0, 0, 0, 0, 1, 255, 255, 255, 255])
      = Server.DataRow.try_from (Reader.new [0, 0, 0, 0, 0, 1, 0, 0, 0, 0])
    ∧ Server.DataRow.try_from (Reader.new [0, 0, 0, 0, 0, 1, 255, 255, 255, 255])
      = .ok ⟨[⟨[]⟩]⟩ := by decide

/-- C6 (amended): every `DataRow` field whose declared wire length is at
most 0 — the NULL sentinel `-1` and a zero-length value alike — decodes to
the same empty `Data` payload without reading any bytes, so NULL is not
representable distinguishably from a zero-length non-null value. -/
theorem data_field_nonpositive_length_empty (r r2 : Reader) (size : Int)
    (h : r.read_i32 = .ok (size, r2)) (hs : size ≤ 0) :
    Server.readDataField r = .ok (⟨[]⟩, r2) := by
  have h1 : ¬ (1 ≤ size) := by omega
  unfold Server.readDataField
  rw [h]
  simp [h1]

/-- C6 witness: the amended theorem applied to a reader holding the NULL
sentinel `-1`. -/
theorem data_field_nonpositive_length_empty_witness :
    Server.readDataField (Reader.new [255, 255, 255, 255])
      = .ok (⟨[]⟩, ⟨[255, 255, 255, 255], 4⟩) :=
  data_field_nonpositive_length_empty (Reader.new [255, 255, 255, 255])
    ⟨[255, 255, 255, 255], 4⟩ (-1) (by decide) (by decide)

/-- C9 counterexample: a buffer whose bytes before the NUL terminator are
not valid UTF-8 (`[0xFF, 0x00]`) makes `read_cstring` fail with
`UnexpectedEof`, not with the `Utf8Error` variant the claim names. -/
theorem read_cstring_invalid_utf8_eof :
    Reader.read_cstring (Reader.new [255, 0]) = .error .unexpectedEof
    ∧ DecodeError.unexpectedEof ≠ DecodeError.utf8Error [255] := by decide

/-- The query message loop never sees a `RowDescription` while scanning a
prefix free of `RowDescription`, `Error` and `CommandComplete` messages, so
reaching `CommandComplete` with the accumulator still `none` always
produces `MissingRowDescription`, whatever `DataRow`s were collected. -/
theorem queryLoop_missing_rd (ms rest : List Server.Message)
    (cc : Server.CommandComplete)
    (h1 : ∀ m ∈ ms, m.is_row_description = false)
    (h2 : ∀ m ∈ ms, m.is_error = false)
    (h3 : ∀ m ∈ ms, m.is_command_complete = false) :
    ∀ (conn : Conn) (acc : List Server.DataRow),
      (Connection.queryLoop conn none acc
          (ms ++ Server.Message.commandComplete cc :: rest)).2
        = .err (.protocolError .missingRowDescription) := by
  induction ms with
  | nil => intro conn acc; rfl
  | cons m ms ih =>
    have hm1 := h1 m (List.mem_cons_self m ms)
    have hm2 := h2 m (List.mem_cons_self m ms)
    have hm3 := h3 m (List.mem_cons_self m ms)
    have ih2 := ih (fun x hx => h1 x (List.mem_cons_of_mem m hx))
      (fun x hx => h2 x (List.mem_cons_of_mem m hx))
      (fun x hx => h3 x (List.mem_cons_of_mem m hx))
    intro conn acc
    cases m <;>
      simp_all [Connection.queryLoop, Server.Message.is_row_description,
        Server.Message.is_error, Server.Message.is_command_complete]

/-- C3 (amended): whenever the response sequence up to the first
`CommandComplete` contains no `RowDescription` (and no `Error`, which would
abort), `Connection::query` fails with `MissingRowDescription` — whether or
not `DataRow` messages are present.  The empty-row-sequence case promised
by the claim for zero `DataRow`s does not exist in the code. -/
theorem query_without_rd_fails (conn : Conn) (q : String)
    (ms rest : List Server.Message) (cc : Server.CommandComplete)
    (h1 : ∀ m ∈ ms, m.is_row_description = false)
    (h2 : ∀ m ∈ ms, m.is_error = false)
    (h3 : ∀ m ∈ ms, m.is_command_complete = false) :
    (Connection.query conn q (ms ++ Server.Message.commandComplete cc :: rest)).outcome
      = .err (.protocolError .missingRowDescription) :=
  queryLoop_missing_rd ms rest cc h1 h2 h3 conn []

/-- C3 witness: the amended theorem at a response carrying one `DataRow`
and no `RowDescription`. -/
theorem query_without_rd_fails_witness :
    (Connection.query Conn.new "SELECT 1"
        [Server.Message.dataRow ⟨[⟨[49]⟩]⟩,
          Server.Message.commandComplete ⟨[]⟩]).outcome
      = .err (.protocolError .missingRowDescription) :=
  query_without_rd_fails Conn.new "SELECT 1"
    [Server.Message.dataRow ⟨[⟨[49]⟩]⟩] [] ⟨[]⟩ (by decide) (by decide) (by decide)

/-- C4 counterexample: a backend `Error` arriving during the startup
handshake does not terminate it — `Connection::create` buffers the error,
keeps looping and succeeds at the following `ReadyForQuery`, refuting the
claim at a concrete input. -/
theorem handshake_succeeds_despite_error :
    (Connection.create 0 none
        [Server.Message.error ⟨[(83, [70])]⟩, Server.Message.readyForQuery]).result
      = .ok ⟨[Server.Message.error ⟨[(83, [70])]⟩], true, none⟩ := by decide

/-- The handshake loop of `Connection::create` appends every
non-`ReadyForQuery` message to the response buffer in order and stops at
the first `ReadyForQuery`, setting the ready flag. -/
theorem handshakeLoop_buffers (ms rest : List Server.Message)
    (h : ∀ m ∈ ms, m.is_ready_for_query = false) :
    ∀ conn : Conn,
      Connection.handshakeLoop conn (ms ++ Server.Message.readyForQuery :: rest)
        = .ok ⟨conn.response_buffer ++ ms, true, conn.key_data⟩ := by
  induction ms with
  | nil => intro conn; simp [Connection.handshakeLoop]
  | cons m ms ih =>
    have hm := h m (List.mem_cons_self m ms)
    have hrest : ∀ x ∈ ms, x.is_ready_for_query = false :=
      fun x hx => h x (List.mem_cons_of_mem m hx)
    have ih2 := ih hrest
    intro conn
    cases m <;>
      simp_all [Connection.handshakeLoop, Server.Message.is_ready_for_query,
        List.append_assoc]

/-- C4 (amended): during the startup handshake every message before the
first `ReadyForQuery` — a backend `Error` included — is appended to the
response buffer and the loop continues waiting for `ReadyForQuery`; the
handshake then completes successfully with the `Error` buffered, not with
a fatal protocol error. -/
theorem create_buffers_all_until_ready (address : Nat) (port : Option Nat)
    (ms rest : List Server.Message)
    (h : ∀ m ∈ ms, m.is_ready_for_query = false) :
    (Connection.create address port
        (ms ++ Server.Message.readyForQuery :: rest)).result
      = .ok ⟨ms, true, none⟩ :=
  handshakeLoop_buffers ms rest h Conn.new

/-- C4 witness: the amended theorem at a handshake delivering a backend
`Error` before `ReadyForQuery`. -/
theorem create_buffers_all_until_ready_witness :
    (Connection.create 0 none
        [Server.Message.error ⟨[]⟩, Server.Message.readyForQuery]).result
      = .ok ⟨[Server.Message.error ⟨[]⟩], true, none⟩ :=
  create_buffers_all_until_ready 0 none [Server.Message.error ⟨[]⟩] [] (by decide)

/-- C7: decoding a `RowDescription` or a `DataRow` whose 16-bit
big-endian field count is negative returns the `UnexpectedValue` decode
error — for every payload after the count and every value of the skipped
length field; the embedding is total, so no panic or truncation is
possible. -/
theorem negative_count_rejected (pre : List Nat) (b0 b1 : Nat) (rest : List Nat)
    (hpre : pre.length = 4) (hneg : toI16 b0 b1 < 0) :
    Server.RowDescription.try_from (Reader.new (pre ++ b0 :: b1 :: rest))
      = .error (.decode (.unexpectedValue "negative number of fields in row description"))
    ∧ Server.DataRow.try_from (Reader.new (pre ++ b0 :: b1 :: rest))
      = .error (.decode (.unexpectedValue
          s!"negative number of fields in data row: `{toI16 b0 b1}`")) := by
  have hlen : 6 ≤ (pre ++ b0 :: b1 :: rest).length := by simp [hpre]; omega
  have hskip : Reader.skip (Reader.new (pre ++ b0 :: b1 :: rest)) 4
      = .ok ⟨pre ++ b0 :: b1 :: rest, 4⟩ := by
    unfold Reader.new Reader.skip
    rw [if_neg (by simp only [not_lt, gt_iff_lt]; omega)]
  have hdrop : (pre ++ b0 :: b1 :: rest).drop 4 = b0 :: b1 :: rest := by
    rw [← hpre, List.drop_left]
  have hread : Reader.read_i16 ⟨pre ++ b0 :: b1 :: rest, 4⟩
      = .ok (toI16 b0 b1, ⟨pre ++ b0 :: b1 :: rest, 6⟩) := by
    unfold Reader.read_i16 Reader.read_bytes
    rw [if_neg (by simp only [not_lt, gt_iff_lt]; omega)]
    simp [hdrop]
  constructor
  · simp [Server.RowDescription.try_from, hskip, hread, liftD, bind, Except.bind, hneg]
  · simp [Server.DataRow.try_from, hskip, hread, liftD, bind, Except.bind, hneg]

/-- C7 witness: both decoders at the concrete count bytes `0xFFFF`
(value `-1`). -/
theorem negative_count_rejected_witness :
    Server.RowDescription.try_from (Reader.new [0, 0, 0, 0, 255, 255])
      = .error (.decode (.unexpectedValue "negative number of fields in row description"))
    ∧ Server.DataRow.try_from (Reader.new [0, 0, 0, 0, 255, 255])
      = .error (.decode
          (.unexpectedValue "negative number of fields in data row: `-1`")) :=
  negative_count_rejected [0, 0, 0, 0] 255 255 [] (by decide) (by decide)

/-- C8: `Connection::read_message` reads the 5-byte header; a declared
length below 4 is rejected with `UnexpectedValue` whatever bytes follow
the header (no body byte is consumed), and for a declared length of at
least 4 (with enough bytes available) the frame handed to
`Message::try_from` is exactly the first `1 + length` bytes of the stream
and exactly those bytes are consumed. -/
theorem read_message_framing (t l0 l1 l2 l3 : Nat) (body : List Nat) :
    (toI32 l0 l1 l2 l3 < 4 →
      Connection.read_message (t :: l0 :: l1 :: l2 :: l3 :: body)
        = .error (.codecError (.decode
            (.unexpectedValue "message length implausibly small"))))
    ∧ (4 ≤ toI32 l0 l1 l2 l3 → (toI32 l0 l1 l2 l3).toNat ≤ 4 + body.length →
      Connection.read_message (t :: l0 :: l1 :: l2 :: l3 :: body)
        = (match Server.Message.try_from (Reader.new
              ((t :: l0 :: l1 :: l2 :: l3 :: body).take
                ((toI32 l0 l1 l2 l3).toNat + 1))) with
           | .error e => .error (.codecError e)
           | .ok msg => .ok (msg,
              (t :: l0 :: l1 :: l2 :: l3 :: body).drop
                ((toI32 l0 l1 l2 l3).toNat + 1)))) := by
  have h1 : Connection.read_exact (t :: l0 :: l1 :: l2 :: l3 :: body) 1
      = some ([t], l0 :: l1 :: l2 :: l3 :: body) := by
    unfold Connection.read_exact
    rw [if_pos (by simp only [List.length_cons]; omega)]
    rfl
  have h2 : Connection.read_exact (l0 :: l1 :: l2 :: l3 :: body) 4
      = some ([l0, l1, l2, l3], body) := by
    unfold Connection.read_exact
    rw [if_pos (by simp only [List.length_cons]; omega)]
    rfl
  constructor
  · intro hlt
    unfold Connection.read_message
    simp only [h1, h2, List.getD_cons_zero, List.getD_cons_succ]
    rw [if_pos hlt]
  · intro hge hbd
    obtain ⟨k, hk⟩ : ∃ k, (toI32 l0 l1 l2 l3).toNat = k + 4 :=
      ⟨(toI32 l0 l1 l2 l3).toNat - 4, by omega⟩
    have hkb : k ≤ body.length := by omega
    have h3 : Connection.read_exact body ((toI32 l0 l1 l2 l3).toNat + 1 - 5)
        = some (body.take k, body.drop k) := by
      unfold Connection.read_exact
      rw [if_pos (by omega)]
      rw [show (toI32 l0 l1 l2 l3).toNat + 1 - 5 = k by omega]
    have htake : (t :: l0 :: l1 :: l2 :: l3 :: body).take
        ((toI32 l0 l1 l2 l3).toNat + 1)
        = t :: l0 :: l1 :: l2 :: l3 :: body.take k := by
      rw [show (toI32 l0 l1 l2 l3).toNat + 1 = ((((k + 1) + 1) + 1) + 1) + 1 by omega]
      simp only [List.take_succ_cons]
    have hdropL : (t :: l0 :: l1 :: l2 :: l3 :: body).drop
        ((toI32 l0 l1 l2 l3).toNat + 1) = body.drop k := by
      rw [show (toI32 l0 l1 l2 l3).toNat + 1 = ((((k + 1) + 1) + 1) + 1) + 1 by omega]
      simp only [List.drop_succ_cons]
    unfold Connection.read_message
    simp only [h1, h2, List.getD_cons_zero, List.getD_cons_succ]
    rw [if_neg (not_lt.mpr hge)]
    simp only [h3, htake, hdropL, List.cons_append, List.nil_append]

/-- C8 witness: a complete `ReadyForQuery`-shaped frame with declared
length 5, followed by one extra byte that is left unconsumed. -/
theorem read_message_framing_witness :
    Connection.read_message [90, 0, 0, 0, 5, 7, 9]
      = .ok (Server.Message.readyForQuery, [9]) := by
  have h := (read_message_framing 90 0 0 0 5 [7, 9]).2 (by decide) (by decide)
  rw [h]
  decide

/-- On a list whose first zero sits at index `k`, `findIdx? (· == 0)`
started at `s` returns `k + s`. -/
theorem findIdx?_first_zero_aux (l : List Nat) (k : Nat) (hk : k < l.length)
    (h0 : l.getD k 0 = 0) (hlt : ∀ i, i < k → l.getD i 0 ≠ 0) :
    ∀ s, l.findIdx? (· == 0) s = some (k + s) := by
  induction l generalizing k with
  | nil => simp at hk
  | cons a l ih =>
    intro s
    rw [List.findIdx?_cons]
    cases k with
    | zero =>
      have ha : a = 0 := h0
      simp [ha]
    | succ k =>
      have ha : a ≠ 0 := hlt 0 (Nat.succ_pos k)
      have hne : (a == 0) = false := by simpa using ha
      rw [hne]
      simp only [Bool.false_eq_true, if_false]
      have := ih k (by simpa using Nat.lt_of_succ_lt_succ hk) h0
        (fun i hi => hlt (i + 1) (Nat.succ_lt_succ hi)) (s + 1)
      rw [this]
      congr 1
      omega

/-- C9 (amended): when `read_cstring` finds a NUL terminator, it returns
the preceding bytes and advances the cursor one past the terminator if
they are valid UTF-8; if they are not valid UTF-8 it fails with
`UnexpectedEof` (the `Utf8Error` variant exists in `DecodeError` but the
source maps the UTF-8 failure to `UnexpectedEof`). -/
theorem read_cstring_first_nul (buffer : List Nat) (pos rel : Nat)
    (hbound : pos + rel < buffer.length)
    (hnul : (buffer.drop pos).getD rel 0 = 0)
    (hbefore : ∀ i, i < rel → (buffer.drop pos).getD i 0 ≠ 0) :
    (utf8Valid ((buffer.drop pos).take rel) = true →
      Reader.read_cstring ⟨buffer, pos⟩
        = .ok ((buffer.drop pos).take rel, ⟨buffer, pos + rel + 1⟩))
    ∧ (utf8Valid ((buffer.drop pos).take rel) = false →
      Reader.read_cstring ⟨buffer, pos⟩ = .error .unexpectedEof) := by
  have hrel : rel < (buffer.drop pos).length := by
    simp only [List.length_drop]
    omega
  have hfind := findIdx?_first_zero_aux (buffer.drop pos) rel hrel hnul hbefore 0
  constructor
  · intro hv
    unfold Reader.read_cstring
    rw [hfind]
    simp [hv]
  · intro hv
    unfold Reader.read_cstring
    rw [hfind]
    simp [hv]

/-- C9 witness: the amended theorem at the valid-UTF-8 buffer `"hi\x00"`
followed by a stray byte: the string is returned and the cursor lands one
past the terminator. -/
theorem read_cstring_first_nul_witness :
    Reader.read_cstring ⟨[104, 105, 0, 7], 0⟩
      = .ok ([104, 105], ⟨[104, 105, 0, 7], 3⟩) := by
  have h := (read_cstring_first_nul [104, 105, 0, 7] 0 2 (by decide) (by decide)
    (by decide)).1 (by decide)
  simpa using h

/-- C10: for every address, port and response script, `Connection::create`
sends exactly one `Startup` message built by
`Startup::new("postgres", None, None)`: its user parameter is the fixed
string `"postgres"` and its option map is empty (no `database`, no
`options` entry), so the public interface admits no other identity. -/
theorem create_sends_fixed_postgres_startup (address : Nat) (port : Option Nat)
    (responses : List Server.Message) :
    (Connection.create address port responses).sent
      = [Client.Message.startup ⟨"postgres", []⟩]
    ∧ Client.Startup.new "postgres" none none = ⟨"postgres", []⟩ :=
  ⟨rfl, rfl⟩

end SmolPg
